import Mathlib

/-!
A shallow embedding of the Remote Execution and Transfer Engine of the
acp-mcp repository (`src/utils/ssh-connection.ts`, `src/types/file-entry.ts`
and the tool handlers), together with theorems settling claims about its
specification.

External primitives (the ssh2 transport, the SFTP file subsystem and
Node's `Buffer` codec) are modelled explicitly: the remote filesystem as a
map from paths to byte contents, promise settlement as `Except`, channel
activity as event lists, and the `utf-8` codec per the WHATWG encoding
standard that Node implements (an unpaired surrogate encodes as the
replacement character U+FFFD).  The codec recursions consume at least one
element per step; they are phrased with an explicit step budget (first
argument) so that they compute by structural recursion, and the wrappers
supply the input length as budget, which always suffices.
-/

namespace AcpMcp

/-- JavaScript strings are sequences of UTF-16 code units (each below 2^16). -/
abbrev JSString := List Nat

/-- UTF-8 encoding of one Unicode scalar value. -/
def utf8EncodeScalar (c : Nat) : List Nat :=
  if c < 0x80 then [c]
  else if c < 0x800 then [0xC0 + c / 64, 0x80 + c % 64]
  else if c < 0x10000 then [0xE0 + c / 4096, 0x80 + c / 64 % 64, 0x80 + c % 64]
  else [0xF0 + c / 262144, 0x80 + c / 4096 % 64, 0x80 + c / 64 % 64, 0x80 + c % 64]

/-- One step of `Buffer.from(·, 'utf-8')` per budget unit: WHATWG UTF-8
encoding of UTF-16 code units, combining high-low surrogate pairs into one
scalar and replacing any unpaired surrogate with U+FFFD. -/
def jsUtf8EncodeF : Nat → JSString → List Nat
  | _, [] => []
  | 0, _ :: _ => []
  | f + 1, u :: rest =>
    if 0xD800 ≤ u ∧ u ≤ 0xDBFF then
      match rest with
      | u2 :: rest2 =>
        if 0xDC00 ≤ u2 ∧ u2 ≤ 0xDFFF then
          utf8EncodeScalar (0x10000 + (u - 0xD800) * 1024 + (u2 - 0xDC00)) ++
            jsUtf8EncodeF f rest2
        else
          utf8EncodeScalar 0xFFFD ++ jsUtf8EncodeF f rest
      | [] => utf8EncodeScalar 0xFFFD
    else if 0xDC00 ≤ u ∧ u ≤ 0xDFFF then
      utf8EncodeScalar 0xFFFD ++ jsUtf8EncodeF f rest
    else
      utf8EncodeScalar u ++ jsUtf8EncodeF f rest

/-- Model of `Buffer.from(content, 'utf-8')` on a JS string. -/
def jsUtf8Encode (s : JSString) : List Nat := jsUtf8EncodeF s.length s

/-- Render a Unicode scalar value as UTF-16 code units (a surrogate pair
above U+FFFF, the unit itself otherwise). -/
def scalarToUnits (c : Nat) : List Nat :=
  if c < 0x10000 then [c]
  else [0xD800 + (c - 0x10000) / 1024, 0xDC00 + (c - 0x10000) % 1024]

/-- One step of WHATWG UTF-8 decoding per budget unit, with the replacement
character U+FFFD for invalid sequences, producing UTF-16 code units. -/
def utf8DecodeF : Nat → List Nat → JSString
  | _, [] => []
  | 0, _ :: _ => []
  | f + 1, b :: rest =>
    if b < 0x80 then b :: utf8DecodeF f rest
    else if b < 0xC2 then 0xFFFD :: utf8DecodeF f rest
    else if b < 0xE0 then
      match rest with
      | [] => [0xFFFD]
      | b2 :: rest2 =>
        if 0x80 ≤ b2 ∧ b2 ≤ 0xBF then
          ((b - 0xC0) * 64 + (b2 - 0x80)) :: utf8DecodeF f rest2
        else 0xFFFD :: utf8DecodeF f (b2 :: rest2)
    else if b < 0xF0 then
      match rest with
      | [] => [0xFFFD]
      | b2 :: rest2 =>
        if (if b = 0xE0 then 0xA0 else 0x80) ≤ b2 ∧ b2 ≤ (if b = 0xED then 0x9F else 0xBF) then
          match rest2 with
          | [] => [0xFFFD]
          | b3 :: rest3 =>
            if 0x80 ≤ b3 ∧ b3 ≤ 0xBF then
              ((b - 0xE0) * 4096 + (b2 - 0x80) * 64 + (b3 - 0x80)) :: utf8DecodeF f rest3
            else 0xFFFD :: utf8DecodeF f (b3 :: rest3)
        else 0xFFFD :: utf8DecodeF f (b2 :: rest2)
    else if b < 0xF5 then
      match rest with
      | [] => [0xFFFD]
      | b2 :: rest2 =>
        if (if b = 0xF0 then 0x90 else 0x80) ≤ b2 ∧ b2 ≤ (if b = 0xF4 then 0x8F else 0xBF) then
          match rest2 with
          | [] => [0xFFFD]
          | b3 :: rest3 =>
            if 0x80 ≤ b3 ∧ b3 ≤ 0xBF then
              match rest3 with
              | [] => [0xFFFD]
              | b4 :: rest4 =>
                if 0x80 ≤ b4 ∧ b4 ≤ 0xBF then
                  scalarToUnits ((b - 0xF0) * 262144 + (b2 - 0x80) * 4096 +
                    (b3 - 0x80) * 64 + (b4 - 0x80)) ++ utf8DecodeF f rest4
                else 0xFFFD :: utf8DecodeF f (b4 :: rest4)
            else 0xFFFD :: utf8DecodeF f (b3 :: rest3)
        else 0xFFFD :: utf8DecodeF f (b2 :: rest2)
    else 0xFFFD :: utf8DecodeF f rest

/-- Model of `buffer.toString('utf-8')` (and of `data.toString()` in
`readFile`). -/
def utf8Decode (bs : List Nat) : JSString := utf8DecodeF bs.length bs

/-- Well-formed UTF-16: every unit below 2^16 and every surrogate part of a
high-low pair.  These are exactly the JS strings whose UTF-8 encoding loses
nothing to replacement. -/
def wellFormedUtf16 : JSString → Bool
  | [] => true
  | u :: rest =>
    if 0xD800 ≤ u ∧ u ≤ 0xDBFF then
      match rest with
      | u2 :: rest2 => decide (0xDC00 ≤ u2 ∧ u2 ≤ 0xDFFF) && wellFormedUtf16 rest2
      | [] => false
    else
      decide (u < 0x10000 ∧ ¬ (0xDC00 ≤ u ∧ u ≤ 0xDFFF)) && wellFormedUtf16 rest

/-- The permitted `BufferEncoding` values of the modelled operations; the
engine's default (and the only encoding exercised by the claims) is
`utf-8`. -/
inductive Encoding
  | utf8
deriving Repr, DecidableEq

/-- `Buffer.from(content, encoding)`. -/
def encodeBytes : Encoding → JSString → List Nat
  | .utf8, s => jsUtf8Encode s

/-- Decoding file bytes with the requested encoding (`data.toString()` on
the buffer produced by `sftp.readFile(path, { encoding }, ...)`). -/
def decodeBytes : Encoding → List Nat → JSString
  | .utf8, bs => utf8Decode bs

/-- The remote filesystem as seen through the SFTP subsystem: a map from
paths to byte contents. -/
abbrev FS := String → Option (List Nat)

/-- Point update of the filesystem map. -/
def FS.set (fs : FS) (p : String) (v : Option (List Nat)) : FS :=
  fun q => if q = p then v else fs q

/-- The resolution value of `writeFile`
(`{ success, bytesWritten, backupPath? }`). -/
structure WriteOutcome where
  success : Bool
  bytesWritten : Nat
  backupPath : Option String
deriving Repr, DecidableEq

/-- Model of `sftp.rename(src, dst, cb)`: an injected transport failure
`inj` if present; otherwise the ssh2 failure message "No such file" when
the source is absent, and otherwise the move of the content onto `dst`. -/
def sftpRename (fs : FS) (src dst : String) (inj : Option String) :
    Except String FS :=
  match inj with
  | some m => .error m
  | none =>
    match fs src with
    | none => .error "No such file"
    | some c => .ok ((FS.set fs src none).set dst (some c))

/-- The inner `performWrite(backupPath?)` of
`SSHConnectionManager.writeFile` (ssh-connection.ts:483-517): write the
encoded buffer to `path + ".tmp"`, then rename the temp file onto `path`;
each step rejects with the code's message on an injected SFTP failure
(`injWrite`, `injRename`), and the `backupPath` argument is echoed into
the resolution value. -/
def performWrite (fs : FS) (path : String) (content : JSString) (enc : Encoding)
    (injWrite injRename : Option String) (backupPath : Option String) :
    FS × Except String WriteOutcome :=
  let buffer := encodeBytes enc content
  let tempPath := path ++ ".tmp"
  match injWrite with
  | some m => (fs, .error ("Failed to write file: " ++ m))
  | none =>
    let fs1 := FS.set fs tempPath (some buffer)
    match injRename with
    | some m => (fs1, .error ("Failed to rename temp file: " ++ m))
    | none =>
      ((FS.set fs1 tempPath none).set path (some buffer),
        .ok { success := true, bytesWritten := buffer.length, backupPath := backupPath })

/-- The inner `writeOperation` of `SSHConnectionManager.writeFile`
(ssh-connection.ts:464-481): when `backup` is requested, rename `path` to
`path + ".backup"`; a failure whose message is not "No such file" rejects,
while a "No such file" failure is tolerated.  Both surviving branches call
`performWrite(backupPath)` with the backup path string. -/
def writeOperation (fs : FS) (path : String) (content : JSString) (enc : Encoding)
    (backup : Bool) (injBackup injWrite injRename : Option String) :
    FS × Except String WriteOutcome :=
  if backup then
    let backupPath := path ++ ".backup"
    match sftpRename fs path backupPath injBackup with
    | .error m =>
      if m ≠ "No such file" then (fs, .error ("Failed to create backup: " ++ m))
      else performWrite fs path content enc injWrite injRename (some backupPath)
    | .ok fs1 => performWrite fs1 path content enc injWrite injRename (some backupPath)
  else performWrite fs path content enc injWrite injRename none

/-- `SSHConnectionManager.writeFile` (ssh-connection.ts:442-529) over the
filesystem model.  `injMkdir` injects a rejection of the `mkdir -p` exec
used when `createDirs` is set; the remaining injections mirror
`writeOperation` and `performWrite`. -/
def writeFile (fs : FS) (path : String) (content : JSString) (enc : Encoding)
    (createDirs backup : Bool) (injMkdir injBackup injWrite injRename : Option String) :
    FS × Except String WriteOutcome :=
  if createDirs then
    match injMkdir with
    | some m => (fs, .error m)
    | none => writeOperation fs path content enc backup injBackup injWrite injRename
  else writeOperation fs path content enc backup injBackup injWrite injRename

/-- The resolution value of `readFile` (`{ content, size, encoding }`). -/
structure ReadOk where
  content : JSString
  size : Nat
  encoding : Encoding
deriving Repr, DecidableEq

/-- Settlement of one `readFile` call, together with whether the
`sftp.readFile` primitive was ever invoked (it is not when the operation
rejects at or before the size guard). -/
structure ReadResponse where
  result : Except String ReadOk
  readPerformed : Bool
deriving Repr

/-- `SSHConnectionManager.readFile` (ssh-connection.ts:391-437): stat the
path (failure: "File not found or inaccessible"), reject when the stat
size strictly exceeds `maxSize` without reading, then read and decode.
`injRead` injects a failure of the `sftp.readFile` primitive. -/
def readFile (fs : FS) (path : String) (enc : Encoding) (maxSize : Nat)
    (injRead : Option String) : ReadResponse :=
  match fs path with
  | none =>
    { result := .error ("File not found or inaccessible: " ++ path)
      readPerformed := false }
  | some bytes =>
    if bytes.length > maxSize then
      { result := .error ("File too large: " ++ toString bytes.length ++
          " bytes (max: " ++ toString maxSize ++ " bytes)")
        readPerformed := false }
    else
      match injRead with
      | some m =>
        { result := .error ("Failed to read file: " ++ m), readPerformed := true }
      | none =>
        { result := .ok { content := decodeBytes enc bytes, size := bytes.length
                          encoding := enc }
          readPerformed := true }

/-- The buffers and exit code accumulated by the exec promise of
`execWithTimeout` when the command channel closes. -/
structure ExecChannelOutcome where
  stdout : String
  stderr : String
  exitCode : Int
deriving Repr, DecidableEq

/-- The resolution value of `execWithTimeout`. -/
structure CommandResult where
  stdout : String
  stderr : String
  exitCode : Int
  timedOut : Bool
deriving Repr, DecidableEq

/-- `SSHConnectionManager.execWithTimeout` (ssh-connection.ts:100-161).
`execOutcome` is the settlement of the exec promise (resolution with the
accumulated buffers and real exit code, or rejection from a channel-open
error); `timerFirst` tells which side of the `Promise.race` settles first.
The catch branch matches the timer's message and returns the timeout
sentinel; other rejections are rethrown. -/
def execWithTimeout (execOutcome : Except String ExecChannelOutcome)
    (timerFirst : Bool) : Except String CommandResult :=
  let raceOutcome : Except String ExecChannelOutcome :=
    if timerFirst then .error "Command execution timed out" else execOutcome
  match raceOutcome with
  | .ok r =>
    .ok { stdout := r.stdout, stderr := r.stderr, exitCode := r.exitCode
          timedOut := false }
  | .error e =>
    if e = "Command execution timed out" then
      .ok { stdout := "", stderr := "Command execution timed out", exitCode := 124
            timedOut := true }
    else .error e

/-- Events observable on a command channel returned by `execStream`. -/
inductive ChanEvent
  | data (chunk : String)
  | errorEvt (msg : String)
  | closeEvt (code : Option Int)
deriving Repr, DecidableEq

/-- The settlement state of a single-resolution future. -/
inductive PromiseState (α : Type)
  | pending
  | resolvedWith (a : α)
  | rejectedWith (msg : String)
deriving Repr, DecidableEq

/-- The exit-code future wired in `execStream` (ssh-connection.ts:200-210):
`resolveExit(code)` is called on the channel's first `close` event and on
nothing else; the executor installs no rejection path, and the `error`
listener added below it (ssh-connection.ts:213-218) only logs. -/
def exitCodeOutcome : List ChanEvent → PromiseState (Option Int)
  | [] => .pending
  | .closeEvt c :: _ => .resolvedWith c
  | .data _ :: rest => exitCodeOutcome rest
  | .errorEvt _ :: rest => exitCodeOutcome rest

/-- The three handles `execStream` resolves with. -/
structure StreamHandles where
  streamEvents : List ChanEvent
  stderrEvents : List ChanEvent
  exitCode : PromiseState (Option Int)
deriving Repr, DecidableEq

/-- `SSHConnectionManager.execStream` (ssh-connection.ts:171-227): the
channel object itself and its stderr side are handed back to the caller
unchanged (so every event on them, errors included, is visible to consumer
listeners), and the exit-code future is `exitCodeOutcome` of the channel's
events. -/
def execStream (stdoutEvents stderrEvents : List ChanEvent) : StreamHandles :=
  { streamEvents := stdoutEvents
    stderrEvents := stderrEvents
    exitCode := exitCodeOutcome stdoutEvents }

/-- The error events visible on a channel handle. -/
def errorsOf : List ChanEvent → List String
  | [] => []
  | .errorEvt m :: rest => m :: errorsOf rest
  | .data _ :: rest => errorsOf rest
  | .closeEvt _ :: rest => errorsOf rest

/-- The connection-relevant state of an `SSHConnectionManager`: the
`connected` flag, plus a count of how many times `this.client.connect(...)`
has been invoked (each invocation starts a handshake). -/
structure ManagerState where
  connected : Bool
  handshakesStarted : Nat
deriving Repr, DecidableEq

/-- Events against the connection logic. -/
inductive ConnEvent
  | connectCall
  | readyEvent
  | disconnectCall
deriving Repr, DecidableEq

/-- One event against `SSHConnectionManager`'s connection lifecycle
(ssh-connection.ts:23-59 and 534-543): `connect()` returns early exactly
when `this.connected` is already true and otherwise invokes
`this.client.connect(...)` unconditionally — there is no in-progress
guard; `connected` becomes true on the client's `ready` event and is
cleared by `disconnect()`. -/
def stepEvent (s : ManagerState) : ConnEvent → ManagerState
  | .connectCall =>
    if s.connected then s
    else { s with handshakesStarted := s.handshakesStarted + 1 }
  | .readyEvent => { s with connected := true }
  | .disconnectCall =>
    if s.connected then { s with connected := false } else s

/-- Run a sequence of connection events. -/
def runEvents (s : ManagerState) : List ConnEvent → ManagerState
  | [] => s
  | e :: rest => runEvents (stepEvent s e) rest

/-- A freshly constructed manager: not connected, no handshake started. -/
def initialManagerState : ManagerState :=
  { connected := false, handshakesStarted := 0 }

/-- Read, write, execute flags for one permission class. -/
structure RWX where
  read : Bool
  write : Bool
  execute : Bool
deriving Repr, DecidableEq

/-- The structured permissions object of a `FileEntry`
(src/types/file-entry.ts). -/
structure Permissions where
  mode : Nat
  string : String
  owner : RWX
  group : RWX
  others : RWX
deriving Repr, DecidableEq

/-- `modeToPermissionString` (file-entry.ts:88-101): nine characters from
the permission bits of `mode`, joined. -/
def modeToPermissionString (mode : Nat) : String :=
  String.mk [
    if mode &&& 0o400 != 0 then 'r' else '-',
    if mode &&& 0o200 != 0 then 'w' else '-',
    if mode &&& 0o100 != 0 then 'x' else '-',
    if mode &&& 0o040 != 0 then 'r' else '-',
    if mode &&& 0o020 != 0 then 'w' else '-',
    if mode &&& 0o010 != 0 then 'x' else '-',
    if mode &&& 0o004 != 0 then 'r' else '-',
    if mode &&& 0o002 != 0 then 'w' else '-',
    if mode &&& 0o001 != 0 then 'x' else '-']

/-- `parsePermissions` (file-entry.ts:108-128). -/
def parsePermissions (mode : Nat) : Permissions :=
  { mode := mode
    string := modeToPermissionString mode
    owner := { read := mode &&& 0o400 != 0, write := mode &&& 0o200 != 0
               execute := mode &&& 0o100 != 0 }
    group := { read := mode &&& 0o040 != 0, write := mode &&& 0o020 != 0
               execute := mode &&& 0o010 != 0 }
    others := { read := mode &&& 0o004 != 0, write := mode &&& 0o002 != 0
                execute := mode &&& 0o001 != 0 } }

/-- The four file types distinguished by `getFileType`. -/
inductive FileType
  | file
  | directory
  | symlink
  | other
deriving Repr, DecidableEq

/-- SFTP stat attributes, with the results of the three type predicates the
code calls on them. -/
structure Attrs where
  mode : Nat
  size : Nat
  uid : Nat
  gid : Nat
  atime : Nat
  mtime : Nat
  isDirectoryAttr : Bool
  isFileAttr : Bool
  isSymlinkAttr : Bool
deriving Repr, DecidableEq

/-- `getFileType` (file-entry.ts:135-140). -/
def getFileType (stats : Attrs) : FileType :=
  if stats.isDirectoryAttr then .directory
  else if stats.isFileAttr then .file
  else if stats.isSymlinkAttr then .symlink
  else .other

/-- Owner identifiers of a `FileEntry`. -/
structure Ownership where
  uid : Nat
  gid : Nat
deriving Repr, DecidableEq

/-- Timestamps of a `FileEntry`, kept as the millisecond values passed to
`new Date(... * 1000)`; the ISO rendering is injective presentation. -/
structure Timestamps where
  accessedMs : Nat
  modifiedMs : Nat
deriving Repr, DecidableEq

/-- `FileEntry` (src/types/file-entry.ts). -/
structure FileEntry where
  name : String
  path : String
  type : FileType
  size : Nat
  permissions : Permissions
  owner : Ownership
  timestamps : Timestamps
deriving Repr, DecidableEq

/-- Collapse runs of slashes, tracking the previously kept character:
the `.replace(/\/+/g, '/')` of the listing paths. -/
def collapseSlashesAux : Option Char → List Char → List Char
  | _, [] => []
  | prev, c :: rest =>
    if c = '/' ∧ prev = some '/' then collapseSlashesAux prev rest
    else c :: collapseSlashesAux (some c) rest

/-- The full path construction of the listing code. -/
def joinPath (dir name : String) : String :=
  String.mk (collapseSlashesAux none (dir ++ "/" ++ name).data)

/-- The `FileEntry` constructed from a name and its stat attributes
(ssh-connection.ts:296-310 and 355-369). -/
def mkEntryFromStat (name fullPath : String) (st : Attrs) : FileEntry :=
  { name := name
    path := fullPath
    type := getFileType st
    size := st.size
    permissions := parsePermissions st.mode
    owner := { uid := st.uid, gid := st.gid }
    timestamps := { accessedMs := st.atime * 1000, modifiedMs := st.mtime * 1000 } }

/-- One `readdir` item: a filename with its attributes. -/
structure SFTPDirent where
  filename : String
  attrs : Attrs
deriving Repr, DecidableEq

/-- The caller-visible settlement of a directory listing, together with the
engine's log lines.  The code resolves with only the entry list, so any
information handed to the caller beyond the entries would have to appear in
`callerNotice`; notes written through `logger` land in `internalLog`. -/
structure ListResponse where
  entries : List FileEntry
  callerNotice : Option String
  internalLog : List String
deriving Repr, DecidableEq

/-- The note the fallback writes through `logger.debug`
(ssh-connection.ts:376-381). -/
def sftpFallbackNote : String :=
  "Files listed via SFTP fallback: hidden files may be missing (SFTP limitation)"

/-- `SSHConnectionManager.listFilesViaSFTP` (ssh-connection.ts:344-386):
map the `readdir` items to entries, filter hidden names when
`includeHidden` is false, log the SFTP-limitation note, and resolve with
the bare entry list. -/
def listFilesViaSFTP (path : String) (readdirOutcome : Except String (List SFTPDirent))
    (includeHidden : Bool) : Except String ListResponse :=
  match readdirOutcome with
  | .error m => .error m
  | .ok list =>
    let entries := list.map fun item =>
      mkEntryFromStat item.filename (joinPath path item.filename) item.attrs
    let entries := if includeHidden then entries
      else entries.filter fun e => !(e.name.startsWith ".")
    .ok { entries := entries, callerNotice := none, internalLog := [sftpFallbackNote] }

/-- `SSHConnectionManager.listFiles` (ssh-connection.ts:256-338):
primary hybrid strategy — filenames from the settlement of
`execWithTimeout` of the shell `ls`, one `sftp.stat` per name through
`statOf` (a `none` stat is the logged-and-skipped per-entry failure) —
falling back to `listFilesViaSFTP` when the `ls` settlement is a rejection
or carries a non-zero exit code. -/
def listFiles (path : String) (lsOutcome : Except String CommandResult)
    (statOf : String → Option Attrs)
    (readdirOutcome : Except String (List SFTPDirent))
    (includeHidden : Bool) : Except String ListResponse :=
  match lsOutcome with
  | .error _ => listFilesViaSFTP path readdirOutcome includeHidden
  | .ok r =>
    if r.exitCode ≠ 0 then listFilesViaSFTP path readdirOutcome includeHidden
    else
      let filenames := ((r.stdout.splitOn "\n").map (fun f => f.trim)).filter
        fun f => f != "" && f != "." && f != ".."
      let entries := filenames.filterMap fun name =>
        (statOf (joinPath path name)).map fun st =>
          mkEntryFromStat name (joinPath path name) st
      .ok { entries := entries, callerNotice := none, internalLog := [] }

/-- A primary-strategy failure: the `ls` settlement was a rejection or a
non-zero exit. -/
def primaryFailed : Except String CommandResult → Prop
  | .error _ => True
  | .ok r => r.exitCode ≠ 0

/-- A sample stat result: a regular file with mode 0o644. -/
def sampleAttrs : Attrs :=
  { mode := 0o644, size := 12, uid := 1000, gid := 1000, atime := 100, mtime := 200
    isDirectoryAttr := false, isFileAttr := true, isSymlinkAttr := false }

/-- Internal consistency of a `Permissions` value: each rwx boolean equals
the corresponding bit of `mode`, and the nine characters of `string` are
determined by the booleans. -/
def PermConsistent (p : Permissions) : Prop :=
  p.owner.read = p.mode.testBit 8 ∧ p.owner.write = p.mode.testBit 7 ∧
  p.owner.execute = p.mode.testBit 6 ∧
  p.group.read = p.mode.testBit 5 ∧ p.group.write = p.mode.testBit 4 ∧
  p.group.execute = p.mode.testBit 3 ∧
  p.others.read = p.mode.testBit 2 ∧ p.others.write = p.mode.testBit 1 ∧
  p.others.execute = p.mode.testBit 0 ∧
  p.string = String.mk [
    if p.owner.read then 'r' else '-', if p.owner.write then 'w' else '-',
    if p.owner.execute then 'x' else '-',
    if p.group.read then 'r' else '-', if p.group.write then 'w' else '-',
    if p.group.execute then 'x' else '-',
    if p.others.read then 'r' else '-', if p.others.write then 'w' else '-',
    if p.others.execute then 'x' else '-']

theorem one_le_length_utf8EncodeScalar (c : Nat) : 1 ≤ (utf8EncodeScalar c).length := by
  rw [utf8EncodeScalar]
  split_ifs <;> simp

theorem length_utf8EncodeScalar_of_ge (c : Nat) (h : 0x10000 ≤ c) :
    (utf8EncodeScalar c).length = 4 := by
  rw [utf8EncodeScalar, if_neg (by omega), if_neg (by omega), if_neg (by omega)]
  rfl

theorem le_length_jsUtf8EncodeF (f : Nat) : ∀ s : JSString, s.length ≤ f →
    s.length ≤ (jsUtf8EncodeF f s).length := by
  induction f with
  | zero =>
    intro s hf
    cases s with
    | nil => simp
    | cons u rest => simp at hf
  | succ f ih =>
    intro s hf
    cases s with
    | nil => simp [jsUtf8EncodeF]
    | cons u rest =>
      cases rest with
      | nil =>
        simp only [jsUtf8EncodeF]
        split_ifs
        · simp [utf8EncodeScalar]
        · simp only [List.length_append, List.length_cons, List.length_nil]
          have h1 := one_le_length_utf8EncodeScalar 0xFFFD
          have h2 := ih [] (by simp)
          simp only [List.length_nil] at h2
          omega
        · simp only [List.length_append, List.length_cons, List.length_nil]
          have h1 := one_le_length_utf8EncodeScalar u
          have h2 := ih [] (by simp)
          simp only [List.length_nil] at h2
          omega
      | cons u2 rest2 =>
        simp only [List.length_cons] at hf
        simp only [jsUtf8EncodeF, List.length_cons]
        split_ifs
        · have h1 := length_utf8EncodeScalar_of_ge
            (0x10000 + (u - 0xD800) * 1024 + (u2 - 0xDC00)) (by omega)
          have h2 := ih rest2 (by omega)
          simp only [List.length_append, h1]
          omega
        · have h1 := one_le_length_utf8EncodeScalar 0xFFFD
          have h2 := ih (u2 :: rest2) (by simp only [List.length_cons]; omega)
          simp only [List.length_append, List.length_cons] at h2 ⊢
          omega
        · have h1 := one_le_length_utf8EncodeScalar 0xFFFD
          have h2 := ih (u2 :: rest2) (by simp only [List.length_cons]; omega)
          simp only [List.length_append, List.length_cons] at h2 ⊢
          omega
        · have h1 := one_le_length_utf8EncodeScalar u
          have h2 := ih (u2 :: rest2) (by simp only [List.length_cons]; omega)
          simp only [List.length_append, List.length_cons] at h2 ⊢
          omega

theorem wellFormedUtf16_cons_not_high (u : Nat) (rest : JSString)
    (h1 : ¬ (0xD800 ≤ u ∧ u ≤ 0xDBFF)) :
    wellFormedUtf16 (u :: rest) =
      (decide (u < 0x10000 ∧ ¬ (0xDC00 ≤ u ∧ u ≤ 0xDFFF)) && wellFormedUtf16 rest) := by
  cases rest with
  | nil =>
    simp only [wellFormedUtf16]
    rw [if_neg h1]
  | cons u2 rest2 =>
    simp only [wellFormedUtf16]
    rw [if_neg h1]

theorem utf8DecodeF_encodeScalar (g c : Nat) (bs : List Nat)
    (h1 : c < 0x110000) (h2 : c < 0xD800 ∨ 0xDFFF < c) :
    utf8DecodeF (g + 1) (utf8EncodeScalar c ++ bs) =
      scalarToUnits c ++ utf8DecodeF g bs := by
  by_cases hA : c < 0x80
  · rw [show utf8EncodeScalar c = [c] by rw [utf8EncodeScalar, if_pos hA],
      show scalarToUnits c = [c] by rw [scalarToUnits, if_pos (by omega)]]
    simp only [List.append_eq, List.cons_append, List.nil_append, utf8DecodeF]
    rw [if_pos hA]
  · by_cases hB : c < 0x800
    · rw [show utf8EncodeScalar c = [0xC0 + c / 64, 0x80 + c % 64] by
        rw [utf8EncodeScalar, if_neg hA, if_pos hB],
        show scalarToUnits c = [c] by rw [scalarToUnits, if_pos (by omega)]]
      simp only [List.append_eq, List.cons_append, List.nil_append, utf8DecodeF]
      rw [if_neg (by omega), if_neg (by omega), if_pos (by omega), if_pos (by omega)]
      rw [show (0xC0 + c / 64 - 0xC0) * 64 + (0x80 + c % 64 - 0x80) = c by omega]
    · by_cases hC : c < 0x10000
      · rw [show utf8EncodeScalar c = [0xE0 + c / 4096, 0x80 + c / 64 % 64, 0x80 + c % 64] by
          rw [utf8EncodeScalar, if_neg hA, if_neg hB, if_pos hC],
          show scalarToUnits c = [c] by rw [scalarToUnits, if_pos (by omega)]]
        simp only [List.append_eq, List.cons_append, List.nil_append, utf8DecodeF]
        rw [if_neg (by omega), if_neg (by omega), if_neg (by omega), if_pos (by omega)]
        rw [if_pos (by split_ifs <;> omega), if_pos (by omega)]
        rw [show (0xE0 + c / 4096 - 0xE0) * 4096 + (0x80 + c / 64 % 64 - 0x80) * 64 +
          (0x80 + c % 64 - 0x80) = c by omega]
      · rw [show utf8EncodeScalar c =
            [0xF0 + c / 262144, 0x80 + c / 4096 % 64, 0x80 + c / 64 % 64, 0x80 + c % 64] by
          rw [utf8EncodeScalar, if_neg hA, if_neg hB, if_neg hC]]
        simp only [List.append_eq, List.cons_append, List.nil_append, utf8DecodeF]
        rw [if_neg (by omega), if_neg (by omega), if_neg (by omega), if_neg (by omega),
          if_pos (by omega)]
        rw [if_pos (by split_ifs <;> omega), if_pos (by omega),
          if_pos (by omega)]
        rw [show (0xF0 + c / 262144 - 0xF0) * 262144 + (0x80 + c / 4096 % 64 - 0x80) * 4096 +
          (0x80 + c / 64 % 64 - 0x80) * 64 + (0x80 + c % 64 - 0x80) = c by omega]

theorem utf8DecodeF_jsUtf8EncodeF (f : Nat) : ∀ (s : JSString) (g : Nat),
    wellFormedUtf16 s = true → s.length ≤ f → s.length ≤ g →
    utf8DecodeF g (jsUtf8EncodeF f s) = s := by
  induction f with
  | zero =>
    intro s g hw hf hg
    cases s with
    | nil => simp [jsUtf8EncodeF, utf8DecodeF]
    | cons u rest => simp at hf
  | succ f ih =>
    intro s g hw hf hg
    cases s with
    | nil => simp [jsUtf8EncodeF, utf8DecodeF]
    | cons u rest =>
      cases g with
      | zero => simp at hg
      | succ g =>
        simp only [List.length_cons] at hf hg
        by_cases h1 : 0xD800 ≤ u ∧ u ≤ 0xDBFF
        · cases rest with
          | nil =>
            simp only [wellFormedUtf16] at hw
            rw [if_pos h1] at hw
            simp at hw
          | cons u2 rest2 =>
            simp only [wellFormedUtf16] at hw
            rw [if_pos h1] at hw
            simp only [Bool.and_eq_true, decide_eq_true_eq] at hw
            obtain ⟨h2, hwr⟩ := hw
            simp only [List.length_cons] at hf hg
            simp only [jsUtf8EncodeF]
            rw [if_pos h1, if_pos h2]
            rw [utf8DecodeF_encodeScalar g _ _ (by omega) (by omega)]
            rw [ih rest2 g hwr (by omega) (by omega)]
            rw [scalarToUnits, if_neg (by omega)]
            simp only [List.cons_append, List.nil_append]
            rw [show 0xD800 + (0x10000 + (u - 0xD800) * 1024 + (u2 - 0xDC00) - 0x10000) / 1024
                = u by omega,
              show 0xDC00 + (0x10000 + (u - 0xD800) * 1024 + (u2 - 0xDC00) - 0x10000) % 1024
                = u2 by omega]
        · by_cases h2 : 0xDC00 ≤ u ∧ u ≤ 0xDFFF
          · rw [wellFormedUtf16_cons_not_high u rest h1] at hw
            simp only [Bool.and_eq_true, decide_eq_true_eq] at hw
            exact absurd h2 hw.1.2
          · rw [wellFormedUtf16_cons_not_high u rest h1] at hw
            simp only [Bool.and_eq_true, decide_eq_true_eq] at hw
            obtain ⟨⟨hu, _⟩, hwr⟩ := hw
            simp only [jsUtf8EncodeF]
            rw [if_neg h1, if_neg h2]
            rw [utf8DecodeF_encodeScalar g _ _ (by omega) (by omega)]
            rw [ih rest g hwr (by omega) (by omega)]
            rw [scalarToUnits, if_pos hu]
            simp

/-- UTF-8 round trip: on a well-formed JS string, decoding the encoding is
the identity. -/
theorem utf8Decode_jsUtf8Encode (s : JSString) (h : wellFormedUtf16 s = true) :
    utf8Decode (jsUtf8Encode s) = s := by
  rw [utf8Decode, jsUtf8Encode]
  exact utf8DecodeF_jsUtf8EncodeF s.length s _ h le_rfl
    (le_length_jsUtf8EncodeF s.length s le_rfl)

theorem FS.set_self (fs : FS) (p : String) (v : Option (List Nat)) :
    FS.set fs p v p = v := by
  simp [FS.set]

theorem FS.set_other (fs : FS) (p : String) (v : Option (List Nat)) (q : String)
    (h : q ≠ p) : FS.set fs p v q = fs q := by
  simp [FS.set, h]

theorem string_ne_append (p s : String) (h : s.length ≠ 0) : p ≠ p ++ s := by
  intro heq
  have hl := congrArg String.length heq
  rw [String.length_append] at hl
  omega

theorem string_append_ne (p s t : String) (h : s.length ≠ t.length) :
    p ++ s ≠ p ++ t := by
  intro heq
  have hl := congrArg String.length heq
  rw [String.length_append, String.length_append] at hl
  omega

/-- Claim C1 (exhibit of the divergence): writing "hello" with
`backup: true` to a path holding no file succeeds with 5 bytes written and
no backup file on the final filesystem, yet the resolution carries
`backupPath = "/tmp/x.backup"` — `performWrite(backupPath)` is invoked
with the backup path string even on the tolerated "No such file" branch
(ssh-connection.ts:469-476), contradicting the claimed (and documented
"path to backup file (if created)") absent `backupPath`. -/
theorem writeFile_backup_fresh_path_sets_backupPath :
    (writeFile (fun _ => none) "/tmp/x" [104, 101, 108, 108, 111] .utf8 false true
        none none none none).2 =
      .ok { success := true, bytesWritten := 5, backupPath := some "/tmp/x.backup" } ∧
    (writeFile (fun _ => none) "/tmp/x" [104, 101, 108, 108, 111] .utf8 false true
        none none none none).1 "/tmp/x.backup" = none :=
  ⟨rfl, rfl⟩

/-- Claim C2: whenever the timeout timer wins the race against the command
channel, `execWithTimeout` resolves with exactly the timeout sentinel
result — stdout empty, stderr the timeout message, exit code 124,
`timedOut` true — whatever buffers the exec promise had accumulated. -/
theorem execWithTimeout_timerFirst (execOutcome : Except String ExecChannelOutcome) :
    execWithTimeout execOutcome true =
      .ok { stdout := "", stderr := "Command execution timed out", exitCode := 124
            timedOut := true } := rfl

/-- Reducing the `createDirs` dispatch of `writeFile` when the `mkdir -p`
exec is not injected to fail. -/
theorem writeFile_no_mkdir (fs : FS) (path : String) (content : JSString)
    (enc : Encoding) (createDirs backup : Bool) (injB injW injR : Option String) :
    writeFile fs path content enc createDirs backup none injB injW injR =
      writeOperation fs path content enc backup injB injW injR := by
  cases createDirs <;> rfl

/-- Claim C4 (counterexample): with `backup: true` on a path whose file
exists, the backup rename moves the old content away before the temp-file
write; when that write then fails, the operation rejects but the content
observable at the path has changed (it is gone from `path`, preserved only
at `path.backup`) — refuting "the content observable at path is unchanged
from before the call". -/
theorem writeFile_tmpfail_target_changed_counterexample :
    ((writeFile (fun q => if q = "/a" then some [104] else none) "/a" [104, 105] .utf8
        false true none none (some "disk full") none).2 =
      .error "Failed to write file: disk full") ∧
    (writeFile (fun q => if q = "/a" then some [104] else none) "/a" [104, 105] .utf8
        false true none none (some "disk full") none).1 "/a" ≠
      (fun q => if q = "/a" then some [104] else none : FS) "/a" :=
  ⟨rfl, by decide⟩

/-- Claim C4 (amended): with no mkdir or backup-rename failure injected, a
temp-write failure rejects with the write error and the prior content of
`path` remains observable — at `path` itself, or (when a backup was
requested) at `path.backup`; a final-rename failure rejects with the
rename error, preserves the prior content likewise, and leaves
`path + ".tmp"` behind holding the freshly encoded buffer. -/
theorem writeFile_failure_preserves_content (fs : FS) (path : String)
    (content : JSString) (enc : Encoding) (createDirs backup : Bool)
    (injWrite injRename : Option String) :
    (∀ m, injWrite = some m →
      ((writeFile fs path content enc createDirs backup none none injWrite injRename).2 =
        .error ("Failed to write file: " ++ m)) ∧
      (((writeFile fs path content enc createDirs backup none none injWrite injRename).1
          path = fs path) ∨
        (backup = true ∧
          (writeFile fs path content enc createDirs backup none none injWrite injRename).1
            (path ++ ".backup") = fs path))) ∧
    (injWrite = none → ∀ m, injRename = some m →
      ((writeFile fs path content enc createDirs backup none none injWrite injRename).2 =
        .error ("Failed to rename temp file: " ++ m)) ∧
      (((writeFile fs path content enc createDirs backup none none injWrite injRename).1
          path = fs path) ∨
        (backup = true ∧
          (writeFile fs path content enc createDirs backup none none injWrite injRename).1
            (path ++ ".backup") = fs path)) ∧
      (writeFile fs path content enc createDirs backup none none injWrite injRename).1
        (path ++ ".tmp") = some (encodeBytes enc content)) := by
  rw [writeFile_no_mkdir]
  have htmp : path ≠ path ++ ".tmp" := string_ne_append path ".tmp" (by decide)
  have hbk : path ≠ path ++ ".backup" := string_ne_append path ".backup" (by decide)
  have hbt : path ++ ".backup" ≠ path ++ ".tmp" := string_append_ne path ".backup" ".tmp" (by decide)
  constructor
  · intro m hm
    subst hm
    cases backup with
    | false =>
      simp [writeOperation, performWrite, FS.set, htmp, hbk, hbt]
    | true =>
      cases hfp : fs path with
      | none =>
        simp [writeOperation, sftpRename, hfp, performWrite, FS.set, htmp, hbk, hbt]
      | some c =>
        simp [writeOperation, sftpRename, hfp, performWrite, FS.set, htmp, hbk, hbt]
  · intro hW m hm
    subst hW
    subst hm
    cases backup with
    | false =>
      simp [writeOperation, performWrite, FS.set, htmp, hbk, hbt]
    | true =>
      cases hfp : fs path with
      | none =>
        simp [writeOperation, sftpRename, hfp, performWrite, FS.set, htmp, hbk, hbt]
      | some c =>
        simp [writeOperation, sftpRename, hfp, performWrite, FS.set, htmp, hbk, hbt]

/-- Witness for the amended C4 statement at a concrete input: a temp-write
failure with a backup of an existing file rejects and preserves the old
content at the backup path. -/
theorem writeFile_failure_preserves_content_witness :
    ((writeFile (fun q => if q = "/a" then some [104] else none) "/a" [104, 105] .utf8
        false true none none (some "disk full") none).2 =
      .error ("Failed to write file: " ++ "disk full")) ∧
    (((writeFile (fun q => if q = "/a" then some [104] else none) "/a" [104, 105] .utf8
        false true none none (some "disk full") none).1
        "/a" = (fun q => if q = "/a" then some [104] else none : FS) "/a") ∨
      (true = true ∧
        (writeFile (fun q => if q = "/a" then some [104] else none) "/a" [104, 105] .utf8
          false true none none (some "disk full") none).1
          ("/a" ++ ".backup") = (fun q => if q = "/a" then some [104] else none : FS) "/a")) :=
  (writeFile_failure_preserves_content (fun q => if q = "/a" then some [104] else none)
    "/a" [104, 105] .utf8 false true (some "disk full") none).1 "disk full" rfl

/-- Claim C3 (counterexample): a listing of "/d" whose shell enumeration
exits non-zero falls back to SFTP readdir with `includeHidden = true`, and
the value resolved to the caller is the bare entry list — `callerNotice`
is `none`, and the entries are plain `FileEntry` records; the
hidden-entries limitation is recorded only in the internal log. -/
theorem listFiles_fallback_silent_counterexample :
    listFiles "/d"
        (.ok { stdout := "", stderr := "ls: boom", exitCode := 1, timedOut := false })
        (fun _ => none)
        (.ok [{ filename := ".hidden", attrs := sampleAttrs }]) true =
      .ok { entries := [mkEntryFromStat ".hidden" "/d/.hidden" sampleAttrs],
            callerNotice := none,
            internalLog := [sftpFallbackNote] } := rfl

/-- Claim C3 (amended): whenever the primary enumeration fails and the
fallback answers, the hidden-entries limitation is written only to the
internal log; the caller receives a bare entry list with no accompanying
metadata (`callerNotice = none`), even when `includeHidden = true`. -/
theorem listFiles_fallback_logs_only (path : String)
    (lsOutcome : Except String CommandResult) (statOf : String → Option Attrs)
    (list : List SFTPDirent) (includeHidden : Bool)
    (hfail : primaryFailed lsOutcome) :
    ∀ resp, listFiles path lsOutcome statOf (.ok list) includeHidden = .ok resp →
      resp.callerNotice = none ∧ sftpFallbackNote ∈ resp.internalLog := by
  intro resp h
  have hfb : listFilesViaSFTP path (.ok list) includeHidden = .ok resp := by
    cases lsOutcome with
    | error m => simpa [listFiles] using h
    | ok r =>
      have hne : r.exitCode ≠ 0 := hfail
      simp only [listFiles] at h
      rwa [if_pos hne] at h
  simp only [listFilesViaSFTP, Except.ok.injEq] at hfb
  rw [← hfb]
  exact ⟨rfl, by simp⟩

/-- Witness for the amended C3 statement at a concrete input: a rejected
`ls` settlement, an empty readdir, `includeHidden = true`. -/
theorem listFiles_fallback_logs_only_witness :
    (ListResponse.mk [] none [sftpFallbackNote]).callerNotice = none ∧
      sftpFallbackNote ∈ (ListResponse.mk [] none [sftpFallbackNote]).internalLog :=
  listFiles_fallback_logs_only "/d" (.error "channel failure") (fun _ => none) [] true
    trivial _ rfl

/-- Claim C5 (counterexample): a caller-destroyed channel surfaces as an
error event followed by a close event with no exit status; the exit-code
future then resolves with `none` — it never error-completes — and with no
close event at all it stays pending forever. -/
theorem execStream_exit_never_rejects_counterexample :
    (execStream [.errorEvt "ECONNRESET", .closeEvt none] []).exitCode =
      .resolvedWith none ∧
    (execStream [.errorEvt "ECONNRESET"] []).exitCode = .pending :=
  ⟨rfl, rfl⟩

theorem exitCodeOutcome_ne_rejected (events : List ChanEvent) (m : String) :
    exitCodeOutcome events ≠ .rejectedWith m := by
  induction events with
  | nil => simp [exitCodeOutcome]
  | cons e rest ih => cases e <;> simp [exitCodeOutcome, ih]

theorem exitCodeOutcome_pending_of_no_close (events : List ChanEvent)
    (h : ∀ c, ChanEvent.closeEvt c ∉ events) : exitCodeOutcome events = .pending := by
  induction events with
  | nil => rfl
  | cons e rest ih =>
    cases e with
    | data s => exact ih fun c hc => h c (List.mem_cons_of_mem _ hc)
    | errorEvt s => exact ih fun c hc => h c (List.mem_cons_of_mem _ hc)
    | closeEvt c => exact absurd (List.mem_cons_self _ _) (h c)

/-- Claim C5 (amended): mid-stream errors are delivered to the consumer on
the returned stdout handle (the engine hands back the channel unchanged;
its own error listener only logs and strips nothing), but the exit-code
future has no error-completion path: it never rejects, stays pending
without a close event, and only resolves — with the close event's possibly
absent code — when the channel closes. -/
theorem execStream_error_delivery (stdoutEvents stderrEvents : List ChanEvent) :
    (execStream stdoutEvents stderrEvents).streamEvents = stdoutEvents ∧
    errorsOf (execStream stdoutEvents stderrEvents).streamEvents = errorsOf stdoutEvents ∧
    (∀ m, (execStream stdoutEvents stderrEvents).exitCode ≠
      PromiseState.rejectedWith m) ∧
    ((∀ c, ChanEvent.closeEvt c ∉ stdoutEvents) →
      (execStream stdoutEvents stderrEvents).exitCode = .pending) :=
  ⟨rfl, rfl, fun m => exitCodeOutcome_ne_rejected stdoutEvents m,
    fun h => exitCodeOutcome_pending_of_no_close stdoutEvents h⟩

/-- Witness for the amended C5 statement at a concrete input. -/
theorem execStream_error_delivery_witness :
    (execStream [ChanEvent.data "x", ChanEvent.errorEvt "boom"] []).exitCode =
      .pending :=
  (execStream_error_delivery [ChanEvent.data "x", ChanEvent.errorEvt "boom"] []).2.2.2
    (by intro c hc; simp at hc)

/-- Claim C6: `readFile` stats first — a failed stat rejects with the
not-found error; a stat size strictly above `maxSize` rejects with the
size error without ever invoking the read primitive; otherwise the full
content is read and decoded with the requested encoding. -/
theorem readFile_guards (fs : FS) (path : String) (enc : Encoding) (maxSize : Nat)
    (injRead : Option String) :
    (fs path = none →
      readFile fs path enc maxSize injRead =
        ReadResponse.mk (.error ("File not found or inaccessible: " ++ path)) false) ∧
    (∀ bytes, fs path = some bytes → bytes.length > maxSize →
      readFile fs path enc maxSize injRead =
        ReadResponse.mk (.error ("File too large: " ++ toString bytes.length ++
          " bytes (max: " ++ toString maxSize ++ " bytes)")) false) ∧
    (∀ bytes, fs path = some bytes → bytes.length ≤ maxSize →
      readFile fs path enc maxSize none =
        ReadResponse.mk (.ok (ReadOk.mk (decodeBytes enc bytes) bytes.length enc)) true) := by
  refine ⟨fun h => ?_, fun bytes hb hgt => ?_, fun bytes hb hle => ?_⟩
  · simp only [readFile, h]
  · simp only [readFile, hb]
    rw [if_pos hgt]
  · simp only [readFile, hb]
    rw [if_neg (by omega)]

/-- Witness for C6 at concrete inputs: a missing path, a 3-byte file
against `maxSize = 2`, and the same file against `maxSize = 3`. -/
theorem readFile_guards_witness :
    (readFile (fun _ => none) "/nope" .utf8 5 none =
      ReadResponse.mk (.error ("File not found or inaccessible: " ++ "/nope")) false) ∧
    (readFile (fun q => if q = "/f" then some [104, 105, 106] else none) "/f" .utf8 2 none =
      ReadResponse.mk (.error ("File too large: " ++ toString (List.length [104, 105, 106]) ++
        " bytes (max: " ++ toString 2 ++ " bytes)")) false) ∧
    (readFile (fun q => if q = "/f" then some [104, 105, 106] else none) "/f" .utf8 3 none =
      ReadResponse.mk (.ok (ReadOk.mk (decodeBytes .utf8 [104, 105, 106])
        (List.length [104, 105, 106]) .utf8)) true) :=
  ⟨(readFile_guards (fun _ => none) "/nope" .utf8 5 none).1 rfl,
    (readFile_guards (fun q => if q = "/f" then some [104, 105, 106] else none)
      "/f" .utf8 2 none).2.1 [104, 105, 106] rfl (by decide),
    (readFile_guards (fun q => if q = "/f" then some [104, 105, 106] else none)
      "/f" .utf8 3 none).2.2 [104, 105, 106] rfl (by decide)⟩

/-- Claim C9: the size guard is exclusive — a file whose stat size equals
`maxSize` exactly is not rejected and is read in full. -/
theorem readFile_size_boundary (fs : FS) (path : String) (enc : Encoding)
    (maxSize : Nat) (bytes : List Nat) (hb : fs path = some bytes)
    (hlen : bytes.length = maxSize) :
    readFile fs path enc maxSize none =
      ReadResponse.mk (.ok (ReadOk.mk (decodeBytes enc bytes) bytes.length enc)) true := by
  simp only [readFile, hb]
  rw [if_neg (by omega)]

/-- Witness for C9 at a concrete input: a 3-byte file read with
`maxSize = 3`. -/
theorem readFile_size_boundary_witness :
    readFile (fun q => if q = "/g" then some [104, 105, 106] else none) "/g" .utf8 3 none =
      ReadResponse.mk (.ok (ReadOk.mk (decodeBytes .utf8 [104, 105, 106])
        (List.length [104, 105, 106]) .utf8)) true :=
  readFile_size_boundary (fun q => if q = "/g" then some [104, 105, 106] else none)
    "/g" .utf8 3 [104, 105, 106] rfl rfl

/-- Claim C7 (counterexample): a write of the lone-surrogate JS string
[0xD800] with utf-8 followed by a read of the same path with matching
encoding returns [0xFFFD] (the replacement character), not the written
content — the round-trip law fails as universally stated. -/
theorem writeFile_readFile_roundtrip_counterexample :
    (readFile (writeFile (fun _ => none) "/f" [0xD800] .utf8 false false
        none none none none).1 "/f" .utf8 1048576 none).result =
      .ok { content := [0xFFFD], size := 3, encoding := .utf8 } ∧
    ([0xFFFD] : JSString) ≠ [0xD800] :=
  ⟨rfl, by decide⟩

/-- Claim C7 (amended): for utf-8 and content that is well-formed UTF-16
(no unpaired surrogate code unit), a successful `writeFile` followed by
`readFile` with `maxSize` at least the encoded length returns exactly the
written content. -/
theorem writeFile_readFile_roundtrip (fs : FS) (path : String) (content : JSString)
    (createDirs backup : Bool) (maxSize : Nat)
    (hw : wellFormedUtf16 content = true)
    (hsize : (jsUtf8Encode content).length ≤ maxSize) :
    readFile (writeFile fs path content .utf8 createDirs backup none none none none).1
        path .utf8 maxSize none =
      ReadResponse.mk (.ok (ReadOk.mk content (jsUtf8Encode content).length .utf8)) true := by
  have hfs : (writeFile fs path content .utf8 createDirs backup none none none none).1
      path = some (jsUtf8Encode content) := by
    rw [writeFile_no_mkdir]
    cases backup with
    | false => simp [writeOperation, performWrite, FS.set, encodeBytes]
    | true =>
      cases hfp : fs path with
      | none => simp [writeOperation, sftpRename, hfp, performWrite, FS.set, encodeBytes]
      | some c => simp [writeOperation, sftpRename, hfp, performWrite, FS.set, encodeBytes]
  simp only [readFile, hfs]
  rw [if_neg (by omega)]
  simp only [decodeBytes, utf8Decode_jsUtf8Encode content hw]

/-- Witness for the amended C7 statement at a concrete input: the content
"hé" (units [104, 233]). -/
theorem writeFile_readFile_roundtrip_witness :
    readFile (writeFile (fun _ => none) "/w" [104, 233] .utf8 false false
        none none none none).1 "/w" .utf8 16 none =
      ReadResponse.mk (.ok (ReadOk.mk [104, 233] (jsUtf8Encode [104, 233]).length .utf8)) true :=
  writeFile_readFile_roundtrip (fun _ => none) "/w" [104, 233] false false 16
    (by decide) (by decide)

/-- Claim C8 (counterexample): after one `connect()` call the manager is
still not connected (the handshake is in flight), yet a second `connect()`
call invokes `this.client.connect(...)` again — two handshakes are
started; the in-flight attempt is not shared. -/
theorem connect_double_handshake_counterexample :
    (runEvents initialManagerState [ConnEvent.connectCall]).connected = false ∧
    (runEvents initialManagerState
      [ConnEvent.connectCall, ConnEvent.connectCall]).handshakesStarted = 2 :=
  ⟨rfl, rfl⟩

/-- Claim C8 (amended): `connect()` while already connected is a no-op,
but `connect()` while not yet connected — in particular while a handshake
is already in flight — always starts another handshake rather than waiting
on and sharing the in-flight attempt. -/
theorem connect_idempotent_only_when_ready (s : ManagerState) :
    (s.connected = true → stepEvent s .connectCall = s) ∧
    (s.connected = false →
      stepEvent s .connectCall =
        { s with handshakesStarted := s.handshakesStarted + 1 }) := by
  constructor
  · intro h
    simp [stepEvent, h]
  · intro h
    simp [stepEvent, h]

/-- Witness for the amended C8 statement at concrete states. -/
theorem connect_idempotent_only_when_ready_witness :
    (stepEvent { connected := true, handshakesStarted := 5 } .connectCall =
      { connected := true, handshakesStarted := 5 }) ∧
    (stepEvent { connected := false, handshakesStarted := 1 } .connectCall =
      { connected := false, handshakesStarted := 2 }) :=
  ⟨(connect_idempotent_only_when_ready _).1 rfl,
    (connect_idempotent_only_when_ready _).2 rfl⟩

theorem and_two_pow_ne_zero (m k : Nat) : (m &&& 2 ^ k != 0) = m.testBit k := by
  rw [Nat.and_two_pow]
  cases h : m.testBit k
  · simp
  · simp [Nat.pos_iff_ne_zero, Nat.pow_eq_zero]

theorem parsePermissions_consistent (mode : Nat) :
    PermConsistent (parsePermissions mode) := by
  refine ⟨?_, ?_, ?_, ?_, ?_, ?_, ?_, ?_, ?_, rfl⟩
  · exact and_two_pow_ne_zero mode 8
  · exact and_two_pow_ne_zero mode 7
  · exact and_two_pow_ne_zero mode 6
  · exact and_two_pow_ne_zero mode 5
  · exact and_two_pow_ne_zero mode 4
  · exact and_two_pow_ne_zero mode 3
  · exact and_two_pow_ne_zero mode 2
  · exact and_two_pow_ne_zero mode 1
  · exact and_two_pow_ne_zero mode 0

theorem mkEntryFromStat_permissions (name fullPath : String) (st : Attrs) :
    (mkEntryFromStat name fullPath st).permissions = parsePermissions st.mode := rfl

theorem listFilesViaSFTP_perm_consistent (path : String)
    (rd : Except String (List SFTPDirent)) (includeHidden : Bool)
    (resp : ListResponse) (h : listFilesViaSFTP path rd includeHidden = .ok resp) :
    ∀ e ∈ resp.entries, PermConsistent e.permissions := by
  intro e he
  cases rd with
  | error m => simp [listFilesViaSFTP] at h
  | ok list =>
    simp only [listFilesViaSFTP, Except.ok.injEq] at h
    rw [← h] at he
    simp only at he
    rcases includeHidden with _ | _
    · simp only [Bool.false_eq_true, if_false, List.mem_filter, List.mem_map] at he
      obtain ⟨⟨item, _, rfl⟩, _⟩ := he
      rw [mkEntryFromStat_permissions]
      exact parsePermissions_consistent item.attrs.mode
    · simp only [if_true, List.mem_map] at he
      obtain ⟨item, _, rfl⟩ := he
      rw [mkEntryFromStat_permissions]
      exact parsePermissions_consistent item.attrs.mode

/-- Claim C10: every `FileEntry` produced by `listFiles` — through the
primary hybrid strategy or the SFTP fallback — carries internally
consistent permissions: the rwx booleans equal the bits of
`permissions.mode`, and the nine-character `permissions.string` matches
the booleans. -/
theorem listFiles_permissions_consistent (path : String)
    (lsOutcome : Except String CommandResult) (statOf : String → Option Attrs)
    (readdirOutcome : Except String (List SFTPDirent)) (includeHidden : Bool)
    (resp : ListResponse)
    (hres : listFiles path lsOutcome statOf readdirOutcome includeHidden = .ok resp) :
    ∀ e ∈ resp.entries, PermConsistent e.permissions := by
  intro e he
  cases lsOutcome with
  | error m =>
    simp only [listFiles] at hres
    exact listFilesViaSFTP_perm_consistent path readdirOutcome includeHidden resp hres e he
  | ok r =>
    simp only [listFiles] at hres
    by_cases hc : r.exitCode ≠ 0
    · rw [if_pos hc] at hres
      exact listFilesViaSFTP_perm_consistent path readdirOutcome includeHidden resp hres e he
    · rw [if_neg hc] at hres
      simp only [Except.ok.injEq] at hres
      rw [← hres] at he
      simp only [List.mem_filterMap] at he
      obtain ⟨name, _, hmap⟩ := he
      cases hst : statOf (joinPath path name) with
      | none => rw [hst] at hmap; simp at hmap
      | some st =>
        rw [hst] at hmap
        simp only [Option.map_some', Option.some.injEq] at hmap
        rw [← hmap, mkEntryFromStat_permissions]
        exact parsePermissions_consistent st.mode

/-- Witness for C10 at a concrete input: a fallback listing producing one
entry with mode 0o644. -/
theorem listFiles_permissions_consistent_witness :
    PermConsistent (mkEntryFromStat "a.txt" (joinPath "/d" "a.txt") sampleAttrs).permissions :=
  listFiles_permissions_consistent "/d" (.error "channel failure") (fun _ => none)
    (.ok [{ filename := "a.txt", attrs := sampleAttrs }]) true
    (ListResponse.mk [mkEntryFromStat "a.txt" (joinPath "/d" "a.txt") sampleAttrs]
      none [sftpFallbackNote])
    rfl
    (mkEntryFromStat "a.txt" (joinPath "/d" "a.txt") sampleAttrs)
    (List.mem_singleton.mpr rfl)

end AcpMcp
